import Mathlib

/-!
Shallow embedding of `certauth.py` (the `CertificateAuthority` class):
root CA creation/loading, per-host leaf certificate issuance, the
file-backed cache, and the PEM codec.

Modelling choices:
* The filesystem is a map `String → Option (List PemBlock)`; a PEM file is
  a list of blocks (`write_pem` writes the key block then the cert block;
  the loaders scan for the first block of the wanted kind, as OpenSSL's
  PEM readers skip non-matching sections). Directories created by
  `os.mkdir` are tracked in a separate list.
* RSA key generation (`crypto.PKey(); generate_key(TYPE_RSA, 2048)`) is
  modelled by a globally fresh identifier drawn from a counter: distinct
  draws give distinct key material.
* `random.randint(0, 2**64 - 1)` is modelled by an ambient stream
  `serialSupply` consumed at `serialIdx`, reduced into the inclusive
  range; on in-range supply values the draw is the identity, so a uniform
  supply gives uniform serials.
* `cert.sign(key, digest)` records the signing key and digest;
  verification against a public key succeeds exactly when the certificate
  was signed with that key pair (abstract signature model).
* `gmtime_adj_notBefore(0)` / `gmtime_adj_notAfter(d)` set the validity
  bounds relative to the ambient clock `World.now`.
* Python falsy defaulting (`if not ca_file: ca_file = CERT_CA_FILE`) is
  modelled on `Option String` arguments, with `none` and `some ""` both
  falsy.
-/

/-- An RSA key pair: `id` identifies the key material produced at a given
draw of the key generator, `bits` the modulus size requested. -/
structure PKey where
  id : Nat
  bits : Nat
deriving DecidableEq

/-- An X.509 name; only the common name is ever set by `certauth.py`. -/
structure X509Name where
  CN : String
deriving DecidableEq

/-- An X.509 extension as built by `crypto.X509Extension(name, critical, value)`. -/
structure X509Ext where
  name : String
  critical : Bool
  value : String
deriving DecidableEq

/-- An X.509 certificate as assembled by `certauth.py`: the fields touched
by `set_version`, `set_serial_number`, `get_subject().CN`, `set_issuer`,
`gmtime_adj_notBefore/notAfter`, `set_pubkey`, `add_extensions`, `sign`. -/
structure X509Cert where
  version : Nat
  serial : Nat
  subject : X509Name
  issuer : Option X509Name
  notBefore : Nat
  notAfter : Nat
  pubkey : Option PKey
  extensions : List X509Ext
  signedBy : Option (PKey × String)
deriving DecidableEq

/-- A certificate signing request (`crypto.X509Req`). -/
structure X509Req where
  subject : X509Name
  pubkey : Option PKey
  signedBy : Option (PKey × String)
deriving DecidableEq

/-- One PEM section of a file: a private-key block, a certificate block, or
malformed content (e.g. a truncated section) that neither loader accepts. -/
inductive PemBlock where
  | keyBlock (k : PKey)
  | certBlock (c : X509Cert)
  | junk
deriving DecidableEq

/-- Errors surfaced by the embedded operations: `ioError` for a missing
file (Python `IOError`/`FileNotFoundError` from `open`), `parseError` for
PEM content the loaders reject (`crypto.Error`). -/
inductive FsError where
  | ioError
  | parseError
deriving DecidableEq

/-- The ambient state: the filesystem, the directories created so far, the
current time, the stream feeding `random.randint` with its cursor, and the
fresh-key counter. -/
structure World where
  fs : String → Option (List PemBlock)
  dirs : List String
  now : Nat
  serialSupply : Nat → Nat
  serialIdx : Nat
  nextKeyId : Nat

/-- Overwrite (or create) the file at `p` with blocks `b` (`open(p, 'wb+')`
truncates, so the previous contents are discarded). -/
def World.writeFile (w : World) (p : String) (b : List PemBlock) : World :=
  { w with fs := fun q => if q = p then some b else w.fs q }

/-- `os.path.exists`: true for files and for directories. -/
def World.pathExists (w : World) (p : String) : Bool :=
  (w.fs p).isSome || w.dirs.contains p

/-- `key = crypto.PKey(); key.generate_key(crypto.TYPE_RSA, bits)`:
fresh key material, modelled as the next value of the key counter. -/
def generateKey (bits : Nat) (w : World) : PKey × World :=
  (⟨w.nextKeyId, bits⟩, { w with nextKeyId := w.nextKeyId + 1 })

/-- `random.randint(0, 2 ** 64 - 1)`: the next value of the serial supply,
reduced into the inclusive range `[0, 2^64 - 1]`. -/
def randint64 (w : World) : Nat × World :=
  (w.serialSupply w.serialIdx % 2 ^ 64, { w with serialIdx := w.serialIdx + 1 })

/-- `CERT_DURATION = 100 * 365 * 24 * 60 * 60` (100 years in seconds). -/
def CERT_DURATION : Nat := 100 * 365 * 24 * 60 * 60

/-- `CERTS_DIR = './pywb-certs/'`. -/
def CERTS_DIR : String := "./pywb-certs/"

/-- `CERT_NAME = 'pywb https proxy replay CA'`. -/
def CERT_NAME : String := "pywb https proxy replay CA"

/-- `CERT_CA_FILE = './pywb-ca.pem'`. -/
def CERT_CA_FILE : String := "./pywb-ca.pem"

/-- Python falsy defaulting `if not arg: arg = dflt` on a string argument:
both `None` and the empty string are replaced by the default. -/
def orDefault (arg : Option String) (dflt : String) : String :=
  match arg with
  | none => dflt
  | some s => if s = "" then dflt else s

/-- `CertificateAuthority._make_cert(certname)`: version 3, a random
64-bit serial, subject CN = `certname`, notBefore = now,
notAfter = now + `CERT_DURATION`; issuer, public key, extensions and
signature are left unset. -/
def make_cert (certname : String) (w : World) : X509Cert × World :=
  let (serial, w) := randint64 w
  ({ version := 3
     serial := serial
     subject := ⟨certname⟩
     issuer := none
     notBefore := w.now
     notAfter := w.now + CERT_DURATION
     pubkey := none
     extensions := []
     signedBy := none }, w)

/-- `CertificateAuthority.write_pem(filename, cert, key)`: the private key
in PEM form immediately followed by the certificate, in one file. -/
def write_pem (filename : String) (cert : X509Cert) (key : PKey) (w : World) : World :=
  w.writeFile filename [.keyBlock key, .certBlock cert]

/-- `crypto.load_certificate(FILETYPE_PEM, data)`: scans for the first
certificate section; fails if none is present. -/
def load_certificate : List PemBlock → Option X509Cert
  | [] => none
  | .certBlock c :: _ => some c
  | _ :: rest => load_certificate rest

/-- `crypto.load_privatekey(FILETYPE_PEM, data)`: scans for the first
private-key section; fails if none is present. -/
def load_privatekey : List PemBlock → Option PKey
  | [] => none
  | .keyBlock k :: _ => some k
  | _ :: rest => load_privatekey rest

/-- `CertificateAuthority.read_pem(filename)`: opens the file (I/O error
if absent), parses the certificate, rewinds, parses the private key. -/
def read_pem (filename : String) (w : World) : Except FsError (X509Cert × PKey) :=
  match w.fs filename with
  | none => .error .ioError
  | some blocks =>
    match load_certificate blocks with
    | none => .error .parseError
    | some cert =>
      match load_privatekey blocks with
      | none => .error .parseError
      | some key => .ok (cert, key)

/-- The three CA extensions attached by `generate_ca_root`. -/
def caExtensions : List X509Ext :=
  [⟨"basicConstraints", true, "CA:TRUE, pathlen:0"⟩,
   ⟨"keyUsage", true, "keyCertSign, cRLSign"⟩,
   ⟨"subjectKeyIdentifier", false, "hash"⟩]

/-- `CertificateAuthority.generate_ca_root(ca_file, certname, overwrite)`:
defaults falsy arguments; if not overwriting and the file exists, decodes
and returns it; otherwise generates a 2048-bit key, builds the template,
self-issues, attaches the CA extensions, signs with its own key, persists
key-then-cert, and returns the fresh root. The state is returned alongside
the result so that the error paths exhibit what was (not) modified. -/
def generate_ca_root (ca_file certname : Option String) (overwrite : Bool)
    (w : World) : Except FsError (Bool × X509Cert × PKey) × World :=
  let certname := orDefault certname CERT_NAME
  let ca_file := orDefault ca_file CERT_CA_FILE
  if !overwrite && w.pathExists ca_file then
    match read_pem ca_file w with
    | .error e => (.error e, w)
    | .ok (cert, key) => (.ok (false, cert, key), w)
  else
    let (key, w) := generateKey 2048 w
    let (cert, w) := make_cert certname w
    let cert := { cert with
      issuer := some cert.subject
      pubkey := some key
      extensions := caExtensions
      signedBy := some (key, "sha1") }
    let w := write_pem ca_file cert key w
    (.ok (true, cert, key), w)

/-- `CertificateAuthority.generate_host_cert(host, root_cert, root_key,
host_filename)`: fresh 2048-bit key; a CSR with CN = host self-signed by
the fresh key; a template with CN = host; issuer set to the root
certificate's subject; public key taken from the CSR; signed with the
root's private key; persisted key-then-cert at `host_filename`. -/
def generate_host_cert (host : String) (root_cert : X509Cert) (root_key : PKey)
    (host_filename : String) (w : World) : (X509Cert × PKey) × World :=
  let (key, w) := generateKey 2048 w
  let req : X509Req :=
    { subject := ⟨host⟩, pubkey := some key, signedBy := some (key, "sha1") }
  let (cert, w) := make_cert host w
  let cert := { cert with
    issuer := some root_cert.subject
    pubkey := req.pubkey
    signedBy := some (root_key, "sha1") }
  let w := write_pem host_filename cert key w
  ((cert, key), w)

/-- Signature verification in the abstract model: a certificate signed
with a key pair verifies against exactly that key pair's public half. -/
def verifySignature (cert : X509Cert) (pub : PKey) : Bool :=
  match cert.signedBy with
  | some (k, _) => k == pub
  | none => false

/-- The in-memory state of a constructed `CertificateAuthority`. -/
structure CertAuthority where
  ca_file : String
  certs_dir : String
  cert : X509Cert
  key : PKey
deriving DecidableEq

/-- `CertificateAuthority.__init__(ca_file, certs_dir)`: defaults falsy
arguments, reads the root from `ca_file` via `read_pem` (propagating its
errors), then creates `certs_dir` if it does not exist. -/
def CertAuthority.init (ca_file certs_dir : Option String) (w : World) :
    Except FsError CertAuthority × World :=
  let ca_file := orDefault ca_file CERT_CA_FILE
  let certs_dir := orDefault certs_dir CERTS_DIR
  match read_pem ca_file w with
  | .error e => (.error e, w)
  | .ok (cert, key) =>
    let w := if w.pathExists certs_dir then w
             else { w with dirs := certs_dir :: w.dirs }
    (.ok ⟨ca_file, certs_dir, cert, key⟩, w)

/-- `CertificateAuthority.get_cert_for_host(host, overwrite)`: the cache
path is `os.path.sep.join([certs_dir, '%s.pem' % host])`; if not
overwriting and the file exists, returns `(False, path)`; otherwise
issues via `generate_host_cert` and returns `(True, path)`. -/
def get_cert_for_host (ca : CertAuthority) (host : String) (overwrite : Bool)
    (w : World) : (Bool × String) × World :=
  let host_filename := ca.certs_dir ++ "/" ++ host ++ ".pem"
  if !overwrite && w.pathExists host_filename then
    ((false, host_filename), w)
  else
    let (_, w) := generate_host_cert host ca.cert ca.key host_filename w
    ((true, host_filename), w)

/-- Path-segment normalization (for stating where an unsanitized hostname
lands): drops empty and `.` segments and lets `..` pop the previous one. -/
def normSegs (segs : List String) : List String :=
  segs.foldl
    (fun acc s =>
      if s = "" ∨ s = "." then acc
      else if s = ".." then acc.dropLast
      else acc ++ [s]) []

/-! Concrete fixtures used by witnesses and counterexamples. -/

/-- An empty world: no files, no directories, zero clock, zero serial
supply, key counter at zero. -/
def w0 : World :=
  { fs := fun _ => none, dirs := [], now := 0,
    serialSupply := fun _ => 0, serialIdx := 0, nextKeyId := 0 }

/-- A concrete key pair. -/
def k0 : PKey := ⟨0, 2048⟩

/-- A concrete root certificate value. -/
def rc0 : X509Cert :=
  { version := 3, serial := 0, subject := ⟨"root"⟩, issuer := some ⟨"root"⟩,
    notBefore := 0, notAfter := CERT_DURATION, pubkey := some k0,
    extensions := caExtensions, signedBy := some (k0, "sha1") }

/-- A world holding a well-formed root PEM file at `"ca.pem"`. -/
def wRoot : World := w0.writeFile "ca.pem" [.keyBlock k0, .certBlock rc0]

/-- A world holding a truncated root PEM file at `"ca.pem"`: the key block
is present but the certificate section was cut off. -/
def wBad : World := w0.writeFile "ca.pem" [.keyBlock k0]

/-- A world whose serial supply is the identity stream. -/
def wSer : World :=
  { fs := fun _ => none, dirs := [], now := 0,
    serialSupply := fun n => n, serialIdx := 0, nextKeyId := 0 }

/-- A concrete constructed authority. -/
def ca0 : CertAuthority := ⟨"ca.pem", "certs", rc0, k0⟩

/-- The fields set by the shared template constructor `_make_cert`. -/
def templateFields (c : X509Cert) : Nat × Nat × String × Nat × Nat :=
  (c.version, c.serial, c.subject.CN, c.notBefore, c.notAfter)

/-- Splits a path into its `/`-separated segments. -/
def splitSegs (s : String) : List String :=
  (s.data.foldr
      (fun c acc =>
        if c = '/' then [] :: acc
        else (c :: acc.headD []) :: acc.tail)
      [[]]).map String.mk

/-- C1: the host certificate produced by `generate_host_cert(h, root_cert,
root_key, path)` has issuer equal to the root certificate's subject,
subject CN exactly the input string `h` (no normalization: the equation
holds for every string), public key equal to the freshly generated key
pair's, and is signed with the root key so that verification against the
root's public key succeeds. -/
theorem generate_host_cert_spec (h : String) (rc : X509Cert) (rk : PKey)
    (fn : String) (w : World) :
    (generate_host_cert h rc rk fn w).1.1.issuer = some rc.subject ∧
    (generate_host_cert h rc rk fn w).1.1.subject.CN = h ∧
    (generate_host_cert h rc rk fn w).1.1.pubkey =
      some (generate_host_cert h rc rk fn w).1.2 ∧
    (generate_host_cert h rc rk fn w).1.2 = ⟨w.nextKeyId, 2048⟩ ∧
    verifySignature (generate_host_cert h rc rk fn w).1.1 rk = true := by
  refine ⟨rfl, rfl, rfl, rfl, ?_⟩
  simp [generate_host_cert, verifySignature, make_cert, randint64, generateKey]

/-- C4: round-trip law of the PEM codec: `write_pem` stores the private
key block immediately followed by the certificate block, and `read_pem`
of a file written by `write_pem` returns exactly the original
certificate and key. -/
theorem pem_round_trip (fn : String) (cert : X509Cert) (key : PKey) (w : World) :
    (write_pem fn cert key w).fs fn = some [.keyBlock key, .certBlock cert] ∧
    read_pem fn (write_pem fn cert key w) = .ok (cert, key) := by
  constructor
  · simp [write_pem, World.writeFile]
  · simp [read_pem, write_pem, World.writeFile, load_certificate, load_privatekey]

/-- C5: the template built by `_make_cert` has version 3, a serial in
`[0, 2^64)` (and the draw is the identity on in-range supply values, so a
uniform supply yields uniform serials), subject CN equal to the input,
notBefore the current time, notAfter the current time plus the fixed
duration `100·365·24·60·60` seconds; the very same template fields appear
in every leaf built by `generate_host_cert` and in every freshly created
root built by `generate_ca_root`. -/
theorem make_cert_template (name : String) (w : World) :
    (make_cert name w).1.version = 3 ∧
    (make_cert name w).1.serial < 2 ^ 64 ∧
    (w.serialSupply w.serialIdx < 2 ^ 64 →
      (make_cert name w).1.serial = w.serialSupply w.serialIdx) ∧
    (make_cert name w).1.subject.CN = name ∧
    (make_cert name w).1.notBefore = w.now ∧
    (make_cert name w).1.notAfter = w.now + CERT_DURATION ∧
    CERT_DURATION = 100 * 365 * 24 * 60 * 60 ∧
    (∀ rc rk fn, templateFields (generate_host_cert name rc rk fn w).1.1 =
      templateFields (make_cert name w).1) ∧
    (∀ path, path ≠ "" → name ≠ "" →
      ∃ cert key wf, generate_ca_root (some path) (some name) true w =
          (.ok (true, cert, key), wf) ∧
        templateFields cert = templateFields (make_cert name w).1) := by
  refine ⟨rfl, ?_, ?_, rfl, rfl, rfl, rfl, ?_, ?_⟩
  · exact Nat.mod_lt _ (by norm_num)
  · intro hlt
    simpa [make_cert, randint64] using Nat.mod_eq_of_lt hlt
  · intro rc rk fn
    rfl
  · intro path hp hn
    refine ⟨{ version := 3, serial := w.serialSupply w.serialIdx % 2 ^ 64,
              subject := ⟨name⟩, issuer := some ⟨name⟩, notBefore := w.now,
              notAfter := w.now + CERT_DURATION,
              pubkey := some ⟨w.nextKeyId, 2048⟩, extensions := caExtensions,
              signedBy := some (⟨w.nextKeyId, 2048⟩, "sha1") },
            ⟨w.nextKeyId, 2048⟩,
            write_pem path
              { version := 3, serial := w.serialSupply w.serialIdx % 2 ^ 64,
                subject := ⟨name⟩, issuer := some ⟨name⟩, notBefore := w.now,
                notAfter := w.now + CERT_DURATION,
                pubkey := some ⟨w.nextKeyId, 2048⟩, extensions := caExtensions,
                signedBy := some (⟨w.nextKeyId, 2048⟩, "sha1") }
              ⟨w.nextKeyId, 2048⟩
              { w with nextKeyId := w.nextKeyId + 1, serialIdx := w.serialIdx + 1 },
            ?_, rfl⟩
    simp [generate_ca_root, orDefault, hp, hn, generateKey, make_cert, randint64]

/-- C9: the cache path computed by `get_cert_for_host` is the certs
directory joined with `/` to the hostname followed by the literal suffix
`.pem`, for every hostname with no sanitization; consequently a hostname
containing path separators escapes the cache directory: for
`certs_dir = "certs"` and host `"../evil"` the returned path normalizes
to `"evil.pem"`, outside `certs`. -/
theorem get_cert_for_host_path_unsanitized (ca : CertAuthority) (h : String)
    (ow : Bool) (w : World) :
    (get_cert_for_host ca h ow w).1.2 = ca.certs_dir ++ "/" ++ h ++ ".pem" ∧
    normSegs (splitSegs (get_cert_for_host ca0 "../evil" false w0).1.2) =
      ["evil.pem"] := by
  constructor
  · simp only [get_cert_for_host]
    split <;> rfl
  · decide

/-- C10: falsy (`None` or empty-string) path and name arguments to the
constructor and to `generate_ca_root` are silently replaced by the
module-level defaults `CERT_CA_FILE = './pywb-ca.pem'`,
`CERTS_DIR = './pywb-certs/'`, `CERT_NAME = 'pywb https proxy replay CA'`:
the operations behave exactly as if the defaults had been passed. -/
theorem falsy_defaults (w : World) (ow : Bool) :
    CERT_CA_FILE = "./pywb-ca.pem" ∧
    CERTS_DIR = "./pywb-certs/" ∧
    CERT_NAME = "pywb https proxy replay CA" ∧
    CertAuthority.init none none w =
      CertAuthority.init (some CERT_CA_FILE) (some CERTS_DIR) w ∧
    CertAuthority.init (some "") (some "") w =
      CertAuthority.init (some CERT_CA_FILE) (some CERTS_DIR) w ∧
    generate_ca_root none none ow w =
      generate_ca_root (some CERT_CA_FILE) (some CERT_NAME) ow w ∧
    generate_ca_root (some "") (some "") ow w =
      generate_ca_root (some CERT_CA_FILE) (some CERT_NAME) ow w := by
  refine ⟨rfl, rfl, rfl, ?_, ?_, ?_, ?_⟩ <;>
    simp [CertAuthority.init, generate_ca_root, orDefault,
      CERT_CA_FILE, CERTS_DIR, CERT_NAME]

/-- Witness for `make_cert_template` at `name = "x"`, `w = w0`,
`path = "ca.pem"`: the in-range-supply and nonempty-string hypotheses hold
there and the conclusions follow by the theorem. -/
theorem make_cert_template_witness :
    (w0.serialSupply w0.serialIdx < 2 ^ 64 ∧
      (make_cert "x" w0).1.serial = w0.serialSupply w0.serialIdx) ∧
    ("ca.pem" ≠ "" ∧ "x" ≠ "" ∧
      ∃ cert key wf, generate_ca_root (some "ca.pem") (some "x") true w0 =
          (.ok (true, cert, key), wf) ∧
        templateFields cert = templateFields (make_cert "x" w0).1) :=
  ⟨⟨by decide, (make_cert_template "x" w0).2.2.1 (by decide)⟩,
   by decide, by decide,
   (make_cert_template "x" w0).2.2.2.2.2.2.2.2 "ca.pem" (by decide) (by decide)⟩

/-- A freshly written file exists. -/
theorem pathExists_writeFile (w : World) (p : String) (b : List PemBlock) :
    (w.writeFile p b).pathExists p = true := by
  simp [World.writeFile, World.pathExists]

/-- C2: with `overwrite = false`, the second of two consecutive
`get_cert_for_host` calls for the same host returns `created = false` and
the same path as the first, and leaves the world exactly as the first
call left it: the file bytes, the key counter and the serial cursor are
unchanged (no key generation, signing, or file modification). -/
theorem get_cert_for_host_idempotent (ca : CertAuthority) (h : String)
    (w : World) :
    get_cert_for_host ca h false (get_cert_for_host ca h false w).2 =
      ((false, (get_cert_for_host ca h false w).1.2),
        (get_cert_for_host ca h false w).2) := by
  cases hex : w.pathExists (ca.certs_dir ++ "/" ++ h ++ ".pem") <;>
    simp [get_cert_for_host, hex, generate_host_cert, write_pem,
      generateKey, make_cert, randint64, pathExists_writeFile]

/-- C3: `generate_ca_root(path, name, overwrite=false)`: if a file exists
at `path` it is decoded via the PEM codec and returned with
`created = false` (the stored certificate and key themselves, so the same
serial and key); otherwise a fresh 2048-bit key is generated, the
certificate is self-issued (issuer = its own subject) with the three CA
extensions, signed with its own key, persisted key-then-cert at `path`,
and returned with `created = true`. -/
theorem generate_ca_root_spec (path name : String) (w : World) (k : PKey)
    (c : X509Cert) (hp : path ≠ "") (hn : name ≠ "") :
    (w.fs path = some [.keyBlock k, .certBlock c] →
      generate_ca_root (some path) (some name) false w =
        (.ok (false, c, k), w)) ∧
    (w.pathExists path = false →
      ∃ cert key wf,
        generate_ca_root (some path) (some name) false w =
          (.ok (true, cert, key), wf) ∧
        key = ⟨w.nextKeyId, 2048⟩ ∧ key.bits = 2048 ∧
        cert.issuer = some cert.subject ∧ cert.subject.CN = name ∧
        cert.extensions = caExtensions ∧
        cert.signedBy = some (key, "sha1") ∧
        wf.fs path = some [.keyBlock key, .certBlock cert]) := by
  constructor
  · intro hf
    have hex : w.pathExists path = true := by simp [World.pathExists, hf]
    simp [generate_ca_root, orDefault, hp, hn, hex, read_pem, hf,
      load_certificate, load_privatekey]
  · intro hno
    refine ⟨{ version := 3, serial := w.serialSupply w.serialIdx % 2 ^ 64,
              subject := ⟨name⟩, issuer := some ⟨name⟩, notBefore := w.now,
              notAfter := w.now + CERT_DURATION,
              pubkey := some ⟨w.nextKeyId, 2048⟩, extensions := caExtensions,
              signedBy := some (⟨w.nextKeyId, 2048⟩, "sha1") },
            ⟨w.nextKeyId, 2048⟩,
            write_pem path
              { version := 3, serial := w.serialSupply w.serialIdx % 2 ^ 64,
                subject := ⟨name⟩, issuer := some ⟨name⟩, notBefore := w.now,
                notAfter := w.now + CERT_DURATION,
                pubkey := some ⟨w.nextKeyId, 2048⟩, extensions := caExtensions,
                signedBy := some (⟨w.nextKeyId, 2048⟩, "sha1") }
              ⟨w.nextKeyId, 2048⟩
              { w with nextKeyId := w.nextKeyId + 1,
                       serialIdx := w.serialIdx + 1 },
            ?_, rfl, rfl, rfl, rfl, rfl, rfl, ?_⟩
    · simp [generate_ca_root, orDefault, hp, hn, hno, generateKey, make_cert,
        randint64]
    · simp [write_pem, World.writeFile]

/-- Witness for `generate_ca_root_spec`: at `path = "ca.pem"`,
`name = "Test CA"`, the load branch on `wRoot` (which stores
`[keyBlock k0, certBlock rc0]` at `"ca.pem"`) and the create branch on
the empty world `w0`. -/
theorem generate_ca_root_spec_witness :
    ("ca.pem" ≠ "" ∧ "Test CA" ≠ "") ∧
    (wRoot.fs "ca.pem" = some [.keyBlock k0, .certBlock rc0] ∧
      generate_ca_root (some "ca.pem") (some "Test CA") false wRoot =
        (.ok (false, rc0, k0), wRoot)) ∧
    (w0.pathExists "ca.pem" = false ∧
      ∃ cert key wf,
        generate_ca_root (some "ca.pem") (some "Test CA") false w0 =
          (.ok (true, cert, key), wf) ∧
        key = ⟨w0.nextKeyId, 2048⟩ ∧ key.bits = 2048 ∧
        cert.issuer = some cert.subject ∧ cert.subject.CN = "Test CA" ∧
        cert.extensions = caExtensions ∧
        cert.signedBy = some (key, "sha1") ∧
        wf.fs "ca.pem" = some [.keyBlock key, .certBlock cert]) :=
  ⟨⟨by decide, by decide⟩,
   ⟨by decide,
    (generate_ca_root_spec "ca.pem" "Test CA" wRoot k0 rc0 (by decide)
      (by decide)).1 (by decide)⟩,
   ⟨by decide,
    (generate_ca_root_spec "ca.pem" "Test CA" w0 k0 rc0 (by decide)
      (by decide)).2 (by decide)⟩⟩

/-- A freshly created directory exists. -/
theorem pathExists_mkdir (w : World) (p : String) :
    ({ w with dirs := p :: w.dirs } : World).pathExists p = true := by
  simp [World.pathExists]

/-- C6 counterexample: constructing the `CertificateAuthority` when no
file exists at `ca_file` does not create the root — `__init__` calls
`read_pem` directly, so construction fails with an I/O error and writes
nothing. -/
theorem ca_init_no_create_counterexample :
    CertAuthority.init (some "ca.pem") (some "certs") w0 =
      (.error .ioError, w0) ∧
    (CertAuthority.init (some "ca.pem") (some "certs") w0).2.fs "ca.pem" =
      none := by
  constructor <;> rfl

/-- C6 (amended): construction reads the root at `ca_file` exactly once
(holding the decoded certificate and key in memory) and ensures the cache
directory exists, creating it when absent; but when no file exists at
`ca_file`, construction fails with an I/O error rather than creating the
root. -/
theorem ca_init_spec (cf cd : String) (w : World) (k : PKey) (c : X509Cert)
    (h1 : cf ≠ "") (h2 : cd ≠ "") :
    (w.fs cf = some [.keyBlock k, .certBlock c] →
      (CertAuthority.init (some cf) (some cd) w).1 = .ok ⟨cf, cd, c, k⟩ ∧
      (CertAuthority.init (some cf) (some cd) w).2.pathExists cd = true ∧
      (CertAuthority.init (some cf) (some cd) w).2.fs = w.fs) ∧
    (w.fs cf = none →
      CertAuthority.init (some cf) (some cd) w = (.error .ioError, w)) := by
  constructor
  · intro hf
    by_cases hcd : w.pathExists cd = true
    · simp [CertAuthority.init, orDefault, h1, h2, read_pem, hf,
        load_certificate, load_privatekey, hcd]
    · have hcd' : w.pathExists cd = false := by simpa using hcd
      simp [CertAuthority.init, orDefault, h1, h2, read_pem, hf,
        load_certificate, load_privatekey, hcd', pathExists_mkdir]
  · intro hf
    simp [CertAuthority.init, orDefault, h1, h2, read_pem, hf]

/-- Witness for `ca_init_spec`: the read branch on `wRoot` (well-formed
root file present) and the failure branch on the empty world `w0`. -/
theorem ca_init_spec_witness :
    ("ca.pem" ≠ "" ∧ "certs" ≠ "") ∧
    (wRoot.fs "ca.pem" = some [.keyBlock k0, .certBlock rc0] ∧
      (CertAuthority.init (some "ca.pem") (some "certs") wRoot).1 =
        .ok ⟨"ca.pem", "certs", rc0, k0⟩ ∧
      (CertAuthority.init (some "ca.pem") (some "certs") wRoot).2.pathExists
        "certs" = true) ∧
    (w0.fs "ca.pem" = none ∧
      CertAuthority.init (some "ca.pem") (some "certs") w0 =
        (.error .ioError, w0)) :=
  ⟨⟨by decide, by decide⟩,
   ⟨by decide,
    ((ca_init_spec "ca.pem" "certs" wRoot k0 rc0 (by decide) (by decide)).1
      (by decide)).1,
    ((ca_init_spec "ca.pem" "certs" wRoot k0 rc0 (by decide) (by decide)).1
      (by decide)).2.1⟩,
   ⟨rfl,
    (ca_init_spec "ca.pem" "certs" w0 k0 rc0 (by decide) (by decide)).2 rfl⟩⟩

/-- C7: when the file at the root path exists but is malformed (a section
missing or truncated so that a loader fails) and `overwrite` is false,
`generate_ca_root` fails with a ParseError and the world — in particular
every file — is left exactly as it was: the malformed file is not
regenerated, and nothing else is written. -/
theorem generate_ca_root_parse_error (path : String) (cn : Option String)
    (w : World) (bs : List PemBlock) (hp : path ≠ "")
    (hf : w.fs path = some bs)
    (hbad : load_certificate bs = none ∨ load_privatekey bs = none) :
    generate_ca_root (some path) cn false w = (.error .parseError, w) := by
  have hex : w.pathExists path = true := by simp [World.pathExists, hf]
  rcases hbad with hb | hb
  · simp [generate_ca_root, orDefault, hp, hex, read_pem, hf, hb]
  · cases hc : load_certificate bs
    · simp [generate_ca_root, orDefault, hp, hex, read_pem, hf, hc]
    · simp [generate_ca_root, orDefault, hp, hex, read_pem, hf, hc, hb]

/-- Witness for `generate_ca_root_parse_error`: `wBad` holds a truncated
PEM file (key block only, certificate section cut off) at `"ca.pem"`. -/
theorem generate_ca_root_parse_error_witness :
    ("ca.pem" ≠ "" ∧ wBad.fs "ca.pem" = some [.keyBlock k0] ∧
      load_certificate [.keyBlock k0] = none) ∧
    generate_ca_root (some "ca.pem") none false wBad =
      (.error .parseError, wBad) :=
  ⟨⟨by decide, by decide, rfl⟩,
   generate_ca_root_parse_error "ca.pem" none wBad [.keyBlock k0] (by decide)
     (by decide) (Or.inl rfl)⟩

/-- The cache file path computed at the top of `get_cert_for_host`:
`os.path.sep.join([certs_dir, '%s.pem' % host])`. -/
def hostPath (ca : CertAuthority) (host : String) : String :=
  ca.certs_dir ++ "/" ++ host ++ ".pem"

/-- The leaf certificate `generate_host_cert` assembles for `host`, as a
function of the root certificate, the signing root key, the drawn serial,
the fresh key and the clock; used to name the issued certificates in
statements about issuance. -/
def leafCert (host : String) (rc : X509Cert) (rk : PKey) (serial : Nat)
    (key : PKey) (tnow : Nat) : X509Cert :=
  { version := 3, serial := serial, subject := ⟨host⟩,
    issuer := some rc.subject, notBefore := tnow,
    notAfter := tnow + CERT_DURATION, pubkey := some key,
    extensions := [], signedBy := some (rk, "sha1") }

/-- C8: two consecutive `get_cert_for_host(h, overwrite=true)` calls both
return `created = true` with the same deterministic path, each generates
a fresh key pair (the two keys and hence the stored public keys differ),
both certificates chain to the same root (issuer = the root's subject,
signature verifying against the root's key), and — whenever the two
serial draws differ, which is the generic case for a random supply — the
two certificates have different serial numbers. -/
theorem get_cert_for_host_overwrite_fresh (ca : CertAuthority) (h : String)
    (w : World)
    (hser : w.serialSupply w.serialIdx % 2 ^ 64 ≠
      w.serialSupply (w.serialIdx + 1) % 2 ^ 64) :
    ∃ c1 k1 c2 k2 w1 w2,
      get_cert_for_host ca h true w = ((true, hostPath ca h), w1) ∧
      get_cert_for_host ca h true w1 = ((true, hostPath ca h), w2) ∧
      w1.fs (hostPath ca h) = some [.keyBlock k1, .certBlock c1] ∧
      w2.fs (hostPath ca h) = some [.keyBlock k2, .certBlock c2] ∧
      k1 ≠ k2 ∧ c1.pubkey = some k1 ∧ c2.pubkey = some k2 ∧
      c1.serial ≠ c2.serial ∧
      c1.issuer = some ca.cert.subject ∧ c2.issuer = some ca.cert.subject ∧
      verifySignature c1 ca.key = true ∧ verifySignature c2 ca.key = true := by
  refine ⟨leafCert h ca.cert ca.key (w.serialSupply w.serialIdx % 2 ^ 64)
      ⟨w.nextKeyId, 2048⟩ w.now,
    ⟨w.nextKeyId, 2048⟩,
    leafCert h ca.cert ca.key (w.serialSupply (w.serialIdx + 1) % 2 ^ 64)
      ⟨w.nextKeyId + 1, 2048⟩ w.now,
    ⟨w.nextKeyId + 1, 2048⟩,
    write_pem (hostPath ca h)
      (leafCert h ca.cert ca.key (w.serialSupply w.serialIdx % 2 ^ 64)
        ⟨w.nextKeyId, 2048⟩ w.now)
      ⟨w.nextKeyId, 2048⟩
      { w with nextKeyId := w.nextKeyId + 1, serialIdx := w.serialIdx + 1 },
    write_pem (hostPath ca h)
      (leafCert h ca.cert ca.key (w.serialSupply (w.serialIdx + 1) % 2 ^ 64)
        ⟨w.nextKeyId + 1, 2048⟩ w.now)
      ⟨w.nextKeyId + 1, 2048⟩
      { write_pem (hostPath ca h)
          (leafCert h ca.cert ca.key (w.serialSupply w.serialIdx % 2 ^ 64)
            ⟨w.nextKeyId, 2048⟩ w.now)
          ⟨w.nextKeyId, 2048⟩
          { w with nextKeyId := w.nextKeyId + 1, serialIdx := w.serialIdx + 1 }
        with nextKeyId := w.nextKeyId + 2, serialIdx := w.serialIdx + 2 },
    ?_, ?_, ?_, ?_, ?_, rfl, rfl, ?_, rfl, rfl, ?_, ?_⟩
  · rfl
  · rfl
  · simp [write_pem, World.writeFile]
  · simp [write_pem, World.writeFile]
  · simp only [ne_eq, PKey.mk.injEq]
    omega
  · exact hser
  · simp [verifySignature, leafCert]
  · simp [verifySignature, leafCert]

/-- Witness for `get_cert_for_host_overwrite_fresh` at `ca0`, host
`"a.test"` and the identity serial supply `wSer`, where the two serial
draws are 0 and 1 and thus differ. -/
theorem get_cert_for_host_overwrite_fresh_witness :
    (wSer.serialSupply wSer.serialIdx % 2 ^ 64 ≠
      wSer.serialSupply (wSer.serialIdx + 1) % 2 ^ 64) ∧
    (∃ c1 k1 c2 k2 w1 w2,
      get_cert_for_host ca0 "a.test" true wSer =
        ((true, hostPath ca0 "a.test"), w1) ∧
      get_cert_for_host ca0 "a.test" true w1 =
        ((true, hostPath ca0 "a.test"), w2) ∧
      w1.fs (hostPath ca0 "a.test") = some [.keyBlock k1, .certBlock c1] ∧
      w2.fs (hostPath ca0 "a.test") = some [.keyBlock k2, .certBlock c2] ∧
      k1 ≠ k2 ∧ c1.pubkey = some k1 ∧ c2.pubkey = some k2 ∧
      c1.serial ≠ c2.serial ∧
      c1.issuer = some ca0.cert.subject ∧ c2.issuer = some ca0.cert.subject ∧
      verifySignature c1 ca0.key = true ∧
      verifySignature c2 ca0.key = true) :=
  ⟨by decide,
   get_cert_for_host_overwrite_fresh ca0 "a.test" wSer (by decide)⟩

/-- C8 counterexample: with a serial supply whose two consecutive draws
coincide (constant zero, as `random.randint` may legitimately return —
collisions are tolerated, not prevented), two consecutive
`get_cert_for_host(…, overwrite=true)` calls store certificates with the
SAME serial number (both 0), so the claim that the two certificates
always have different serial numbers fails. -/
theorem get_cert_overwrite_serial_collision :
    (((get_cert_for_host ca0 "a.test" true w0).2.fs
          (hostPath ca0 "a.test")).bind load_certificate).map
        (fun c => c.serial) = some 0 ∧
    (((get_cert_for_host ca0 "a.test" true
            (get_cert_for_host ca0 "a.test" true w0).2).2.fs
          (hostPath ca0 "a.test")).bind load_certificate).map
        (fun c => c.serial) = some 0 := by
  decide
